import Mathlib

/-!
Verification of the `auto_remove.py` watermark-removal pipeline.

The repository watches a directory for new image files, resizes each image to
a canonical 1280x720 working resolution, builds a binary mask over a fixed
bottom-right watermark rectangle, dilates that mask and applies Navier-Stokes
inpainting, and writes the result under the same basename in an output
directory.

This file is a shallow embedding of that program.  Pure image arithmetic
(canvas allocation, paste, threshold, dilation, channel swaps) is translated
directly; the external library kernels with no logic of their own (the PIL
Lanczos resampling, the PIL colour-space conversion, the cv2 inpainting solver)
are taken as explicit function parameters, since no claim depends on the
pixel values they produce, only on the dimensions and wiring around them.
Filesystem- and event-side behaviour is modelled as an explicit action trace.
-/

namespace AutoRemove

/-! ## Geometry constants (auto_remove.py lines 23-27) -/

def TARGET_WIDTH : Nat := 1280

def TARGET_HEIGHT : Nat := 720

def MASK_SIZE : Nat := 45

def PADDING_RIGHT : Nat := 30

def PADDING_BOTTOM : Nat := 30

/-! ## Raster data model

`PILImage` models a PIL `Image` object: a mode tag plus a pixel function
indexed by channel, x, y.  `GrayImage` models a single-channel numpy array
(`np.array` of an `L`-mode image, cv2 masks).  `CVImage` models a
`height x width x channels` numpy array as used by cv2. -/

inductive PILMode where
  | one
  | L
  | P
  | RGB
  | RGBA
deriving DecidableEq

structure PILImage where
  width : Nat
  height : Nat
  mode : PILMode
  px : Nat → Nat → Nat → Nat

structure GrayImage where
  width : Nat
  height : Nat
  px : Nat → Nat → Nat

structure CVImage where
  width : Nat
  height : Nat
  channels : Nat
  px : Nat → Nat → Nat → Nat

/-- The type of an external resampling kernel: source image, target width,
target height, then channel/x/y of the produced pixel.  The PIL LANCZOS filter
is such a kernel; its numeric output is library-defined, so it stays a
parameter. -/
def ResampleFn : Type := PILImage → Nat → Nat → Nat → Nat → Nat → Nat

/-- Model of `Image.resize` with LANCZOS resampling: produces an image of
exactly the requested size, in the same mode, with library-defined pixels. -/
def pilResize (lanczos : ResampleFn) (img : PILImage) (w h : Nat) : PILImage :=
  ⟨w, h, img.mode, fun c x y => lanczos img w h c x y⟩

/-- Model of `img.convert(mode)`: same dimensions, new mode, pixel values
given by the colour-space conversion `conv` of the library (for RGBA sources
this is where the alpha channel is discarded). -/
def convertMode (conv : PILImage → Nat → Nat → Nat → Nat) (tgt : PILMode)
    (img : PILImage) : PILImage :=
  ⟨img.width, img.height, tgt, conv img⟩

/-- Model of `np.array` on an L-mode image: a single-channel raster. -/
def npArrayGray (img : PILImage) : GrayImage :=
  ⟨img.width, img.height, fun x y => img.px 0 x y⟩

/-- Model of `np.array` on an RGB-mode image: a three-channel raster. -/
def npArray3 (img : PILImage) : CVImage :=
  ⟨img.width, img.height, 3, img.px⟩

/-- Model of `cv2.cvtColor` with COLOR_RGB2BGR: swap channels 0 and 2. -/
def cvtColorRGB2BGR (a : CVImage) : CVImage :=
  ⟨a.width, a.height, a.channels, fun c x y => a.px (2 - c) x y⟩

/-- Model of `cv2.cvtColor` with COLOR_BGR2RGB: swap channels 0 and 2. -/
def cvtColorBGR2RGB (a : CVImage) : CVImage :=
  ⟨a.width, a.height, a.channels, fun c x y => a.px (2 - c) x y⟩

/-- Model of `Image.fromarray` on a three-channel RGB array. -/
def fromArrayRGB (a : CVImage) : PILImage :=
  ⟨a.width, a.height, PILMode.RGB, a.px⟩

/-- Model of `Image.new` with mode L, size (w, h) and the given fill. -/
def GrayImage.new (w h fill : Nat) : GrayImage :=
  ⟨w, h, fun _ _ => fill⟩

/-- Model of `canvas.paste(img, (ox, oy))` for single-channel rasters: inside the paste
box the pasted pixels replace the canvas, elsewhere the canvas is kept. -/
def pasteGray (canvas img : GrayImage) (ox oy : Nat) : GrayImage :=
  ⟨canvas.width, canvas.height, fun x y =>
    if ox ≤ x ∧ x < ox + img.width ∧ oy ≤ y ∧ y < oy + img.height then
      img.px (x - ox) (y - oy)
    else
      canvas.px x y⟩

/-- Model of `cv2.threshold` with THRESH_BINARY: pixels strictly
above `thresh` become `maxval`, all others become 0. -/
def cv2_threshold_binary (m : GrayImage) (thresh maxval : Nat) : GrayImage :=
  ⟨m.width, m.height, fun x y => if thresh < m.px x y then maxval else 0⟩

/-! ## `create_mask` (auto_remove.py lines 53-71) -/

/-- The composited (pre-threshold) canvas built inside `create_mask`:
resize the mask asset to `MASK_SIZE x MASK_SIZE`, convert to `L` if needed,
and paste it at `(offset_x, offset_y)` onto an all-zero canonical canvas. -/
def mask_canvas_of (lanczos : ResampleFn) (toGray : PILImage → Nat → Nat → Nat → Nat)
    (maskAsset : PILImage) : GrayImage :=
  let mask_resized := pilResize lanczos maskAsset MASK_SIZE MASK_SIZE
  let mask_resized :=
    if mask_resized.mode ≠ PILMode.L then convertMode toGray PILMode.L mask_resized
    else mask_resized
  let offset_x := TARGET_WIDTH - MASK_SIZE - PADDING_RIGHT
  let offset_y := TARGET_HEIGHT - MASK_SIZE - PADDING_BOTTOM
  let mask_canvas := GrayImage.new TARGET_WIDTH TARGET_HEIGHT 0
  pasteGray mask_canvas (npArrayGray mask_resized) offset_x offset_y

/-- Model of `create_mask(mask_path)`: composite the resized asset onto the zero
canvas, then `cv2.threshold(..., 127, 255, THRESH_BINARY)`. -/
def create_mask (lanczos : ResampleFn) (toGray : PILImage → Nat → Nat → Nat → Nat)
    (maskAsset : PILImage) : GrayImage :=
  cv2_threshold_binary (mask_canvas_of lanczos toGray maskAsset) 127 255

/-- A single-channel raster is binary when every pixel is 0 or 255. -/
def isBinary (m : GrayImage) : Prop :=
  ∀ x y, m.px x y = 0 ∨ m.px x y = 255

/-! ## `resize_image` (auto_remove.py lines 39-51)

The `try` block opens the input path, resizes to the canonical size, converts
to RGB when the mode differs, and converts the array to BGR channel order;
any exception while opening/decoding is caught inside `resize_image`, which
then returns `None`.  The decode outcome of a path is modelled by an
`openImage : Path → Option PILImage` environment function. -/

/-- A filesystem path, as a list of characters. -/
abbrev Path : Type := List Char

/-- The conversion step of `resize_image`: when the resized image mode is
not RGB, convert it to RGB. -/
def convRGB (toRGB : PILImage → Nat → Nat → Nat → Nat) (img : PILImage) : PILImage :=
  if img.mode ≠ PILMode.RGB then convertMode toRGB PILMode.RGB img else img

/-- Model of `resize_image(input_path)`. -/
def resize_image (lanczos : ResampleFn) (toRGB : PILImage → Nat → Nat → Nat → Nat)
    (openImage : Path → Option PILImage) (input_path : Path) : Option CVImage :=
  match openImage input_path with
  | none => none
  | some img =>
    let resized_img := pilResize lanczos img TARGET_WIDTH TARGET_HEIGHT
    some (cvtColorRGB2BGR (npArray3 (convRGB toRGB resized_img)))

/-- The working image produced by a successful `resize_image` call, given the
decoded input `img`. -/
def resizedCV (lanczos : ResampleFn) (toRGB : PILImage → Nat → Nat → Nat → Nat)
    (img : PILImage) : CVImage :=
  cvtColorRGB2BGR (npArray3 (convRGB toRGB (pilResize lanczos img TARGET_WIDTH TARGET_HEIGHT)))

/-- Concrete witness data: a 4-channel 10x20 RGBA input. -/
def imgW2 : PILImage := ⟨10, 20, PILMode.RGBA, fun _ _ _ => 7⟩

def lanczosW : ResampleFn := fun _ _ _ _ _ _ => 0

def toRGBW : PILImage → Nat → Nat → Nat → Nat := fun _ _ _ _ => 0

def openImageW : Path → Option PILImage := fun _ => some imgW2

def outW2 : CVImage := resizedCV lanczosW toRGBW imgW2

/-! ## `inpaint_image` (auto_remove.py lines 73-80)

`cv2.dilate` with the all-ones 3x3 kernel replaces each pixel by the maximum
of its 3x3 neighbourhood; pixels outside the raster do not contribute
(the OpenCV default morphology border value is transformed so the border never
affects a dilation, and contributing 0 is equivalent for non-negative
values since the centre pixel is always in bounds). -/

/-- Pixel access clamped to the raster: out-of-bounds reads as 0. -/
def pxAt (m : GrayImage) (x y : Nat) : Nat :=
  if x < m.width ∧ y < m.height then m.px x y else 0

/-- The 3x3 neighbourhood footprint of the all-ones kernel, centred at
`(x, y)` (at the left/top border, `Nat` subtraction duplicates the centre
column/row, which is harmless under `max`). -/
def neighborList (x y : Nat) : List (Nat × Nat) :=
  [(x - 1, y - 1), (x, y - 1), (x + 1, y - 1),
   (x - 1, y),     (x, y),     (x + 1, y),
   (x - 1, y + 1), (x, y + 1), (x + 1, y + 1)]

def maxFold (f : Nat × Nat → Nat) (l : List (Nat × Nat)) : Nat :=
  l.foldr (fun p acc => max (f p) acc) 0

/-- One `cv2.dilate` iteration with the 3x3 all-ones structuring element. -/
def dilateOnce (m : GrayImage) : GrayImage :=
  ⟨m.width, m.height, fun x y => maxFold (fun p => pxAt m p.1 p.2) (neighborList x y)⟩

/-- Model of `cv2.dilate` with kernel `np.ones((3, 3))` and the given
iteration count. -/
def cvDilate (m : GrayImage) : Nat → GrayImage
  | 0 => m
  | n + 1 => dilateOnce (cvDilate m n)

inductive InpaintFlag where
  | ns
  | telea
deriving DecidableEq

/-- Model of `inpaint_image(img_cv, mask_binary)`: dilate the mask with the 3x3
all-ones kernel for 2 iterations, then call `cv2.inpaint` with radius 15 and
`cv2.INPAINT_NS`; the Navier-Stokes solver itself is the external parameter
`cvInpaint`. -/
def inpaint_image (cvInpaint : CVImage → GrayImage → Nat → InpaintFlag → CVImage)
    (img_cv : CVImage) (mask_binary : GrayImage) : CVImage :=
  let mask_dilated := cvDilate mask_binary 2
  cvInpaint img_cv mask_dilated 15 InpaintFlag.ns

/-- The nonzero region of a single-channel raster (only in-bounds pixels). -/
def nz (m : GrayImage) : Set (Nat × Nat) :=
  setOf fun p => pxAt m p.1 p.2 ≠ 0

/-- The all-zero 3x3 binary mask: dilation cannot grow an empty region, so
the region after `cv2.dilate(..., iterations=2)` is not strictly larger. -/
def zeroMaskC4 : GrayImage := ⟨3, 3, fun _ _ => 0⟩

/-- Witness data for C4: a 3x3 binary mask with a single nonzero centre. -/
def mW4 : GrayImage := ⟨3, 3, fun x y => if x = 1 ∧ y = 1 then 255 else 0⟩

/-! ## Path and filename helpers

`os.path.basename` keeps everything after the last `/`; `os.path.join`
appends with a separator (an absolute second argument replaces the first);
`str.lower()` maps characters to lower case; `str.endswith(t)` is a suffix
test.  The generic worker is `afterLast sep l`: the segment of `l` after the
last occurrence of `sep` (all of `l` when `sep` does not occur). -/

def afterLast (sep : Char) (l : List Char) : List Char :=
  (l.reverse.takeWhile (fun c => c != sep)).reverse

/-- Model of `os.path.basename`. -/
def basename (p : Path) : Path := afterLast '/' p

/-- Model of `os.path.join(dir, name)`. -/
def pathJoin (dir name : Path) : Path :=
  if name.head? = some '/' then name
  else if dir = [] then name
  else if dir.getLast? = some '/' then dir ++ name
  else dir ++ '/' :: name

/-- Model of `str.lower()`. -/
def toLowerList (l : List Char) : List Char := l.map Char.toLower

/-- Model of `s.endswith(t)`. -/
def endsWith (s t : List Char) : Bool := decide (t <:+ s)

/-- Model of `s.endswith` on a tuple of suffixes: true when some listed
suffix matches. -/
def endsWithAny (s : List Char) (l : List (List Char)) : Bool :=
  l.any fun t => endsWith s t

/-- The literal suffix tuple (.png, .jpg, .jpeg, .bmp, .tiff) from
`WatermarkHandler.on_created`. -/
def allowedSuffixes : List (List Char) :=
  [(".png").toList, (".jpg").toList, (".jpeg").toList, (".bmp").toList, (".tiff").toList]

/-- The allow-listed extensions, without their dots. -/
def allowedExtNames : List (List Char) :=
  [("png").toList, ("jpg").toList, ("jpeg").toList, ("bmp").toList, ("tiff").toList]

/-- The extension of a filename: the segment after the last dot, or `none`
when the name contains no dot. -/
def extAfterDot (l : List Char) : Option (List Char) :=
  if '.' ∈ l then some (afterLast '.' l) else none

/-- A filename qualifies when its extension, compared after lower-casing, is
one of the allow-listed extensions. -/
def hasAllowedExtension (filename : Path) : Prop :=
  ∃ e ∈ allowedExtNames, extAfterDot (toLowerList filename) = some e

/-! ## Pipeline orchestration and the watchdog handler
(auto_remove.py lines 29-31, 82-101, 105-125, 129-152)

Observable behaviour is modelled as a trace of actions.  `process_file_logic`
returns `Except.ok trace` for a run that returns normally and
`Except.error (trace, msg)` for a run that raises a Python exception after
performing `trace` (opening the mask asset and saving the result can raise;
`resize_image` catches its own exceptions and returns `None`). -/

inductive Action where
  | sleep (seconds : Nat)
  | logDetected (filename : Path)
  | logCritical
  | logReadError
  | logFailure (filename : Path) (err : String)
  | resizeStep
  | buildMaskStep
  | inpaintStep
  | save (path : Path) (img : PILImage) (quality : Nat)
  | mkdirs (path : Path) (existOk : Bool)

/-- The external world of one processing invocation: the configured output
directory, whether that directory currently exists, whether the mask asset
path exists, the decode outcome of each input path, the outcome of opening
the mask asset, the external image kernels, and whether `save` raises. -/
structure Env where
  outputDir : Path
  outputDirExists : Bool
  maskExists : Bool
  openImage : Path → Option PILImage
  maskAsset : Except String PILImage
  lanczos : ResampleFn
  toRGB : PILImage → Nat → Nat → Nat → Nat
  toGray : PILImage → Nat → Nat → Nat → Nat
  cvInpaint : CVImage → GrayImage → Nat → InpaintFlag → CVImage
  saveErr : Option String

/-- The image handed to `result_img.save(output_path, quality=95)`:
`Image.fromarray(cv2.cvtColor(result_cv, cv2.COLOR_BGR2RGB))`. -/
def savedImage (env : Env) (img asset : PILImage) : PILImage :=
  fromArrayRGB (cvtColorBGR2RGB (inpaint_image env.cvInpaint
    (resizedCV env.lanczos env.toRGB img)
    (create_mask env.lanczos env.toGray asset)))

/-- Model of `process_file_logic(input_path, output_path)`. -/
def process_file_logic (env : Env) (input_path output_path : Path) :
    Except (List Action × String) (List Action) :=
  if env.maskExists = false then
    Except.ok [Action.logCritical]
  else
    match resize_image env.lanczos env.toRGB env.openImage input_path with
    | none => Except.ok [Action.resizeStep, Action.logReadError]
    | some img_cv =>
      match env.maskAsset with
      | Except.error e => Except.error ([Action.resizeStep], e)
      | Except.ok asset =>
        let mask_binary := create_mask env.lanczos env.toGray asset
        let result_cv := inpaint_image env.cvInpaint img_cv mask_binary
        let result_img := fromArrayRGB (cvtColorBGR2RGB result_cv)
        match env.saveErr with
        | some e =>
          Except.error ([Action.resizeStep, Action.buildMaskStep, Action.inpaintStep], e)
        | none =>
          Except.ok [Action.resizeStep, Action.buildMaskStep, Action.inpaintStep,
            Action.save output_path result_img 95]

/-- A watchdog file-creation event. -/
structure Event where
  is_directory : Bool
  src_path : Path

/-- Model of `WatermarkHandler.on_created`: filter directories and non-allow-listed
extensions, sleep 1 second, then run the pipeline inside `try/except`,
logging any exception together with the filename instead of propagating. -/
def on_created (env : Env) (event : Event) : List Action :=
  if event.is_directory then []
  else
    let filename := basename event.src_path
    if endsWithAny (toLowerList filename) allowedSuffixes = false then []
    else
      Action.sleep 1 :: Action.logDetected filename ::
        (match process_file_logic env event.src_path (pathJoin env.outputDir filename) with
         | Except.ok tr => tr
         | Except.error (tr, e) => tr ++ [Action.logFailure filename e])

/-- The watcher dispatches each event to `on_created` independently. -/
def processEvents (env : Env) (events : List Event) : List (List Action) :=
  events.map (on_created env)

/-- The startup configuration record loaded from `config.json`. -/
structure Config where
  inputDir : Path
  outputDir : Path
  maskFilename : Path

/-- Module-level initialization (lines 29-31): the two `os.makedirs` calls
with `exist_ok` set, run once when the module loads, before the main guard. -/
def moduleInit (cfg : Config) : List Action :=
  [Action.mkdirs cfg.inputDir true, Action.mkdirs cfg.outputDir true]

inductive MainOutcome where
  | exitWithCode (code : Nat)
  | watcherStarted
deriving DecidableEq

/-- The main guard (lines 129-140): when the mask asset path does not
exist it prints an error and calls `sys.exit(1)` before the `Observer` is
created; otherwise the watcher starts. -/
def mainStartup (maskExists : Bool) : MainOutcome :=
  if maskExists = false then MainOutcome.exitWithCode 1 else MainOutcome.watcherStarted

/-- The actions a run performed (for a raising run, those before the raise). -/
def traceOf : Except (List Action × String) (List Action) → List Action
  | Except.ok tr => tr
  | Except.error pe => pe.1

/-- Did the run return normally (no exception)? -/
def isOkB : Except (List Action × String) (List Action) → Bool
  | Except.ok _ => true
  | Except.error _ => false

/-- Does a trace write an output file? -/
def hasSave (tr : List Action) : Bool :=
  tr.any fun a =>
    match a with
    | Action.save _ _ _ => true
    | _ => false

/-- Does a trace create a directory? -/
def hasMkdirs (tr : List Action) : Bool :=
  tr.any fun a =>
    match a with
    | Action.mkdirs _ _ => true
    | _ => false

def assetW : PILImage := ⟨5, 5, PILMode.L, fun _ _ _ => 200⟩

def imgW3 : PILImage := ⟨640, 480, PILMode.RGB, fun _ _ _ => 3⟩

def envW3 : Env :=
  ⟨("out").toList, true, true, fun _ => some imgW3, Except.ok assetW, lanczosW,
    toRGBW, toRGBW, fun i _ _ _ => i, none⟩

def evW3 : Event := ⟨false, ("in/pic.jpg").toList⟩

def envW5 : Env :=
  ⟨("out").toList, true, true, fun _ => some imgW3, Except.error ("mask decode failed"),
    lanczosW, toRGBW, toRGBW, fun i _ _ _ => i, none⟩

def evW5 : Event := ⟨false, ("in/x.png").toList⟩

def envW6 : Env :=
  ⟨("out").toList, true, false, fun _ => some imgW3, Except.ok assetW, lanczosW,
    toRGBW, toRGBW, fun i _ _ _ => i, none⟩

def evW6 : Event := ⟨false, ("in/y.bmp").toList⟩

def envW8 : Env :=
  ⟨("out").toList, true, true, fun _ => some imgW3, Except.ok assetW, lanczosW,
    toRGBW, toRGBW, fun i _ _ _ => i, none⟩

def evW8 : Event := ⟨false, ("in/a.PNG").toList⟩

/-- C9 counterexample: a run of `process_file_logic` in a world where the
output directory is absent performs no directory creation at all — the
`os.makedirs` calls happen once at module initialization, not per run — and
its write fails, refuting the claim that each run creates the output
directory if absent before writing so that the write succeeds. -/
def envC9 : Env :=
  ⟨("out").toList, false, true, fun _ => some imgW3, Except.ok assetW, lanczosW,
    toRGBW, toRGBW, fun i _ _ _ => i, some ("No such file or directory")⟩

def inC9 : Path := ("in/a.jpg").toList

def outC9 : Path := ("out/a.jpg").toList

def envW10 : Env :=
  ⟨("out").toList, true, false, fun _ => none, Except.ok assetW, lanczosW,
    toRGBW, toRGBW, fun i _ _ _ => i, none⟩

/-- Outside the paste rectangle x ∈ [1205, 1250), y ∈ [645, 690) the
composited canvas is still the all-zero canvas. -/
lemma mask_canvas_px_outside (lanczos : ResampleFn)
    (toGray : PILImage → Nat → Nat → Nat → Nat) (maskAsset : PILImage) (x y : Nat)
    (h : ¬ (1205 ≤ x ∧ x < 1250 ∧ 645 ≤ y ∧ y < 690)) :
    (mask_canvas_of lanczos toGray maskAsset).px x y = 0 := by
  by_cases hmode : maskAsset.mode = PILMode.L
  · simp only [mask_canvas_of, pilResize, convertMode, npArrayGray, pasteGray,
      GrayImage.new, hmode, TARGET_WIDTH, TARGET_HEIGHT, MASK_SIZE, PADDING_RIGHT,
      PADDING_BOTTOM, ne_eq, not_true_eq_false, if_false, ite_false, reduceIte]
    split
    · exfalso; omega
    · rfl
  · simp only [mask_canvas_of, pilResize, convertMode, npArrayGray, pasteGray,
      GrayImage.new, hmode, TARGET_WIDTH, TARGET_HEIGHT, MASK_SIZE, PADDING_RIGHT,
      PADDING_BOTTOM, ne_eq, not_false_eq_true, if_true, ite_true, reduceIte]
    split
    · exfalso; omega
    · rfl

/-- C1: for every mask asset and every resampling/conversion kernel,
`create_mask` returns a single-channel raster (`GrayImage`) of exactly
1280x720 whose pixels are only 0 and 255 (a pixel is 255 exactly when the
composited canvas value exceeds 127), and whose nonzero pixels all lie in
the rectangle x ∈ [1205, 1250), y ∈ [645, 690), because the 45x45 resized
asset is composited at offset (1205, 645) onto an all-zero canvas. -/
theorem C1_create_mask_binary_bounded :
    ∀ (lanczos : ResampleFn) (toGray : PILImage → Nat → Nat → Nat → Nat)
      (maskAsset : PILImage),
      (create_mask lanczos toGray maskAsset).width = 1280 ∧
      (create_mask lanczos toGray maskAsset).height = 720 ∧
      isBinary (create_mask lanczos toGray maskAsset) ∧
      (∀ x y, (create_mask lanczos toGray maskAsset).px x y = 255 ↔
        127 < (mask_canvas_of lanczos toGray maskAsset).px x y) ∧
      (∀ x y, (create_mask lanczos toGray maskAsset).px x y ≠ 0 →
        1205 ≤ x ∧ x < 1250 ∧ 645 ≤ y ∧ y < 690) := by
  intro lanczos toGray maskAsset
  refine ⟨rfl, rfl, ?_, ?_, ?_⟩
  · intro x y
    by_cases h : 127 < (mask_canvas_of lanczos toGray maskAsset).px x y
    · right
      simp [create_mask, cv2_threshold_binary, h]
    · left
      simp [create_mask, cv2_threshold_binary, h]
  · intro x y
    constructor
    · intro h
      by_contra hc
      simp [create_mask, cv2_threshold_binary, hc] at h
    · intro h
      simp [create_mask, cv2_threshold_binary, h]
  · intro x y hne
    have hthr : 127 < (mask_canvas_of lanczos toGray maskAsset).px x y := by
      by_contra hc
      simp [create_mask, cv2_threshold_binary, hc] at hne
    by_contra hc
    have hz := mask_canvas_px_outside lanczos toGray maskAsset x y (by omega)
    omega

lemma resize_image_some (lanczos : ResampleFn)
    (toRGB : PILImage → Nat → Nat → Nat → Nat) (openImage : Path → Option PILImage)
    (input_path : Path) (img : PILImage) (h : openImage input_path = some img) :
    resize_image lanczos toRGB openImage input_path =
      some (resizedCV lanczos toRGB img) := by
  simp [resize_image, resizedCV, h]

/-- C2: for every decodable input image — whatever its size, aspect ratio or
colour mode (indexed, single-channel, RGBA with alpha) — `resize_image`
returns a working image of exactly 1280x720 pixels with exactly 3 colour
channels; the RGBA alpha channel does not survive because every non-RGB mode
is converted to the 3-channel RGB mode before the array is built. -/
theorem C2_resize_image_canonical :
    ∀ (lanczos : ResampleFn) (toRGB : PILImage → Nat → Nat → Nat → Nat)
      (openImage : Path → Option PILImage) (input_path : Path) (out : CVImage),
      resize_image lanczos toRGB openImage input_path = some out →
      out.width = 1280 ∧ out.height = 720 ∧ out.channels = 3 := by
  intro lanczos toRGB openImage input_path out h
  rcases hopen : openImage input_path with _ | img
  · rw [resize_image, hopen] at h
    exact absurd h (by simp)
  · rw [resize_image_some lanczos toRGB openImage input_path img hopen] at h
    have hout : out = resizedCV lanczos toRGB img := by
      exact (Option.some.injEq _ _ ▸ h).symm
    subst hout
    refine ⟨?_, ?_, rfl⟩ <;>
      simp only [resizedCV, convRGB, cvtColorRGB2BGR, npArray3, convertMode, pilResize] <;>
      split <;> rfl

theorem C2_resize_image_canonical_witness :
    resize_image lanczosW toRGBW openImageW [] = some outW2 ∧
    outW2.width = 1280 ∧ outW2.height = 720 ∧ outW2.channels = 3 :=
  ⟨rfl, C2_resize_image_canonical lanczosW toRGBW openImageW [] outW2 rfl⟩

lemma le_maxFold (f : Nat × Nat → Nat) :
    ∀ (l : List (Nat × Nat)) (p : Nat × Nat), p ∈ l → f p ≤ maxFold f l := by
  intro l
  induction l with
  | nil => intro p hp; cases hp
  | cons a t ih =>
    intro p hp
    rcases List.mem_cons.mp hp with h | h
    · subst h; exact Nat.le_max_left _ _
    · exact Nat.le_trans (ih p h) (Nat.le_max_right _ _)

lemma pxAt_ne_zero_elim (m : GrayImage) (x y : Nat) (h : pxAt m x y ≠ 0) :
    x < m.width ∧ y < m.height ∧ m.px x y ≠ 0 := by
  by_cases hb : x < m.width ∧ y < m.height
  · refine ⟨hb.1, hb.2, ?_⟩
    rwa [pxAt, if_pos hb] at h
  · exact absurd (by rw [pxAt, if_neg hb]) h

lemma pxAt_le_dilateOnce (m : GrayImage) (x y : Nat) :
    pxAt m x y ≤ pxAt (dilateOnce m) x y := by
  by_cases hb : x < m.width ∧ y < m.height
  · have h1 : pxAt (dilateOnce m) x y =
        maxFold (fun p => pxAt m p.1 p.2) (neighborList x y) := if_pos hb
    rw [h1]
    have hle : pxAt m x y ≤ maxFold (fun p => pxAt m p.1 p.2) (neighborList x y) :=
      le_maxFold (fun p => pxAt m p.1 p.2) (neighborList x y) (x, y) (by simp [neighborList])
    exact hle
  · rw [pxAt, if_neg hb]
    exact Nat.zero_le _

lemma dilateOnce_ne_zero_of_mem (m : GrayImage) (cx cy ax ay : Nat)
    (hcx : cx < m.width) (hcy : cy < m.height)
    (hmem : (ax, ay) ∈ neighborList cx cy) (ha : pxAt m ax ay ≠ 0) :
    pxAt (dilateOnce m) cx cy ≠ 0 := by
  have h1 : pxAt (dilateOnce m) cx cy =
      maxFold (fun p => pxAt m p.1 p.2) (neighborList cx cy) := if_pos ⟨hcx, hcy⟩
  rw [h1]
  intro h0
  have hle : pxAt m ax ay ≤ maxFold (fun p => pxAt m p.1 p.2) (neighborList cx cy) :=
    le_maxFold (fun p => pxAt m p.1 p.2) (neighborList cx cy) (ax, ay) hmem
  omega

lemma nz_subset_dilateOnce (m : GrayImage) : nz m ⊆ nz (dilateOnce m) := by
  intro p hp
  have hle := pxAt_le_dilateOnce m p.1 p.2
  have hp' : pxAt m p.1 p.2 ≠ 0 := hp
  show pxAt (dilateOnce m) p.1 p.2 ≠ 0
  omega

/-- Either the stepped-to cell is already nonzero, or it is a zero cell that
one dilation turns nonzero (because a nonzero neighbour feeds its max). -/
lemma growth_step (m : GrayImage) (ax ay cx cy : Nat)
    (hcx : cx < m.width) (hcy : cy < m.height)
    (hmem : (ax, ay) ∈ neighborList cx cy) (ha : pxAt m ax ay ≠ 0) :
    pxAt m cx cy ≠ 0 ∨
      ∃ c1 c2, c1 < m.width ∧ c2 < m.height ∧ m.px c1 c2 = 0 ∧
        pxAt (dilateOnce m) c1 c2 ≠ 0 := by
  by_cases h0 : m.px cx cy = 0
  · exact Or.inr ⟨cx, cy, hcx, hcy, h0,
      dilateOnce_ne_zero_of_mem m cx cy ax ay hcx hcy hmem ha⟩
  · refine Or.inl ?_
    rw [pxAt, if_pos ⟨hcx, hcy⟩]
    exact h0

/-- Walking from a nonzero cell towards a zero cell, some zero cell adjacent
to a nonzero cell must occur, and one dilation makes it nonzero. -/
lemma exists_growth (m : GrayImage) :
    ∀ d ax ay bx byv, Nat.dist ax bx + Nat.dist ay byv = d →
      pxAt m ax ay ≠ 0 → bx < m.width → byv < m.height → m.px bx byv = 0 →
      ∃ c1 c2, c1 < m.width ∧ c2 < m.height ∧ m.px c1 c2 = 0 ∧
        pxAt (dilateOnce m) c1 c2 ≠ 0 := by
  intro d
  induction d using Nat.strong_induction_on with
  | _ d ih =>
    intro ax ay bx byv hd ha hbx hby hb0
    obtain ⟨hax, hay, hapx⟩ := pxAt_ne_zero_elim m ax ay ha
    by_cases hdz : d = 0
    · subst hdz
      have h1 : ax = bx := Nat.eq_of_dist_eq_zero (by omega)
      have h2 : ay = byv := Nat.eq_of_dist_eq_zero (by omega)
      rw [h1, h2] at hapx
      exact absurd hb0 hapx
    · by_cases hxe : ax = bx
      · subst hxe
        by_cases hyl : ay < byv
        · have hay1 : ay + 1 < m.height := by omega
          have hmem : (ax, ay) ∈ neighborList ax (ay + 1) := by simp [neighborList]
          rcases growth_step m ax ay ax (ay + 1) hax hay1 hmem ha with h | h
          · have hlt : Nat.dist ax ax + Nat.dist (ay + 1) byv < d := by
              simp [Nat.dist] at hd ⊢
              omega
            exact ih _ hlt ax (ay + 1) ax byv rfl h hbx hby hb0
          · exact h
        · have hyg : byv < ay := by
            rcases Nat.lt_or_ge byv ay with h | h
            · exact h
            · exfalso
              have : ay = byv := by omega
              apply hdz
              rw [this] at hd
              simp [Nat.dist] at hd
              omega
          have hay1 : ay - 1 < m.height := by omega
          have hstep : ay - 1 + 1 = ay := by omega
          have hmem : (ax, ay) ∈ neighborList ax (ay - 1) := by
            simp [neighborList, hstep]
          rcases growth_step m ax ay ax (ay - 1) hax hay1 hmem ha with h | h
          · have hlt : Nat.dist ax ax + Nat.dist (ay - 1) byv < d := by
              simp [Nat.dist] at hd ⊢
              omega
            exact ih _ hlt ax (ay - 1) ax byv rfl h hbx hby hb0
          · exact h
      · by_cases hxl : ax < bx
        · have hax1 : ax + 1 < m.width := by omega
          have hmem : (ax, ay) ∈ neighborList (ax + 1) ay := by simp [neighborList]
          rcases growth_step m ax ay (ax + 1) ay hax1 hay hmem ha with h | h
          · have hlt : Nat.dist (ax + 1) bx + Nat.dist ay byv < d := by
              simp [Nat.dist] at hd ⊢
              omega
            exact ih _ hlt (ax + 1) ay bx byv rfl h hbx hby hb0
          · exact h
        · have hxg : bx < ax := by omega
          have hax1 : ax - 1 < m.width := by omega
          have hstep : ax - 1 + 1 = ax := by omega
          have hmem : (ax, ay) ∈ neighborList (ax - 1) ay := by
            simp [neighborList, hstep]
          rcases growth_step m ax ay (ax - 1) ay hax1 hay hmem ha with h | h
          · have hlt : Nat.dist (ax - 1) bx + Nat.dist ay byv < d := by
              simp [Nat.dist] at hd ⊢
              omega
            exact ih _ hlt (ax - 1) ay bx byv rfl h hbx hby hb0
          · exact h

lemma pxAt_zeroMaskC4 (x y : Nat) : pxAt zeroMaskC4 x y = 0 := by
  rw [pxAt]
  split <;> rfl

lemma dilateOnce_zeroMaskC4 (x y : Nat) : (dilateOnce zeroMaskC4).px x y = 0 := by
  show maxFold (fun p => pxAt zeroMaskC4 p.1 p.2) (neighborList x y) = 0
  simp [maxFold, neighborList, pxAt_zeroMaskC4]

lemma pxAt_dilateOnce_zeroMaskC4 (x y : Nat) : pxAt (dilateOnce zeroMaskC4) x y = 0 := by
  rw [pxAt]
  split
  · exact dilateOnce_zeroMaskC4 x y
  · rfl

lemma dilate2_zeroMaskC4_px (x y : Nat) : (cvDilate zeroMaskC4 2).px x y = 0 := by
  show maxFold (fun p => pxAt (dilateOnce zeroMaskC4) p.1 p.2) (neighborList x y) = 0
  simp [maxFold, neighborList, pxAt_dilateOnce_zeroMaskC4]

/-- C4 counterexample: the all-zero mask is binary, yet the nonzero region of
its 2-iteration dilation (also empty) is not strictly larger, refuting the
universal quantification of the claim over binary masks. -/
theorem C4_counterexample_zero_mask :
    isBinary zeroMaskC4 ∧ ¬ nz zeroMaskC4 ⊂ nz (cvDilate zeroMaskC4 2) := by
  constructor
  · intro x y
    exact Or.inl rfl
  · intro hss
    rw [Set.ssubset_def] at hss
    apply hss.2
    intro p hp
    exfalso
    have hz : pxAt (cvDilate zeroMaskC4 2) p.1 p.2 = 0 := by
      rw [pxAt]
      split
      · exact dilate2_zeroMaskC4_px p.1 p.2
      · rfl
    exact hp hz

/-- C4 (amended): `inpaint_image` dilates its mask with the 3x3 all-ones
structuring element for exactly 2 iterations and hands the dilated mask to
Navier-Stokes inpainting with radius 15; and for every binary mask that has
at least one nonzero pixel and at least one in-bounds zero pixel, the dilated
nonzero region of the dilated mask is strictly larger than that of the
original. -/
theorem C4_dilation_params_and_strict_growth :
    (∀ (cvInpaint : CVImage → GrayImage → Nat → InpaintFlag → CVImage)
       (img_cv : CVImage) (mask_binary : GrayImage),
       inpaint_image cvInpaint img_cv mask_binary =
         cvInpaint img_cv (cvDilate mask_binary 2) 15 InpaintFlag.ns) ∧
    (∀ m : GrayImage, isBinary m →
      (∃ x y, pxAt m x y ≠ 0) →
      (∃ x y, x < m.width ∧ y < m.height ∧ m.px x y = 0) →
      nz m ⊂ nz (cvDilate m 2)) := by
  constructor
  · intro cvInpaint img_cv mask_binary
    rfl
  · rintro m _hbin ⟨ax, ay, ha⟩ ⟨bx, byv, hbx, hby, hb0⟩
    have hsub1 : nz m ⊆ nz (dilateOnce m) := nz_subset_dilateOnce m
    have hsub2 : nz (dilateOnce m) ⊆ nz (dilateOnce (dilateOnce m)) :=
      nz_subset_dilateOnce (dilateOnce m)
    obtain ⟨c1, c2, hc1, hc2, hc0, hcd⟩ :=
      exists_growth m (Nat.dist ax bx + Nat.dist ay byv) ax ay bx byv rfl ha hbx hby hb0
    have hcd2 : pxAt (dilateOnce (dilateOnce m)) c1 c2 ≠ 0 := by
      have := pxAt_le_dilateOnce (dilateOnce m) c1 c2
      omega
    have heq : cvDilate m 2 = dilateOnce (dilateOnce m) := rfl
    rw [heq, Set.ssubset_def]
    refine ⟨fun p hp => hsub2 (hsub1 hp), fun hsup => ?_⟩
    have hcin : (c1, c2) ∈ nz (dilateOnce (dilateOnce m)) := hcd2
    have hcnotin : (c1, c2) ∉ nz m := by
      show ¬ pxAt m c1 c2 ≠ 0
      rw [pxAt, if_pos ⟨hc1, hc2⟩]
      simpa using hc0
    exact hcnotin (hsup hcin)

theorem C4_strict_growth_witness :
    isBinary mW4 ∧ pxAt mW4 1 1 ≠ 0 ∧ mW4.px 0 0 = 0 ∧
      nz mW4 ⊂ nz (cvDilate mW4 2) := by
  have hbin : isBinary mW4 := by
    intro x y
    by_cases h : x = 1 ∧ y = 1
    · right
      simp [mW4, h]
    · left
      simp [mW4, h]
  have h11 : pxAt mW4 1 1 ≠ 0 := by decide
  exact ⟨hbin, h11, rfl,
    C4_dilation_params_and_strict_growth.2 mW4 hbin ⟨1, 1, h11⟩
      ⟨0, 0, by decide, by decide, rfl⟩⟩

lemma takeWhile_app (p : Char → Bool) :
    ∀ (a : List Char) (x : Char) (rest : List Char),
      (∀ c ∈ a, p c = true) → p x = false →
      (a ++ x :: rest).takeWhile p = a ∧ (a ++ x :: rest).dropWhile p = x :: rest := by
  intro a
  induction a with
  | nil =>
    intro x rest _ hx
    refine ⟨?_, ?_⟩
    · simp [List.takeWhile_cons, hx]
    · simp [List.dropWhile_cons, hx]
  | cons c t ih =>
    intro x rest ha hx
    have hc : p c = true := ha c (List.mem_cons_self c t)
    have ht := ih x rest (fun d hd => ha d (List.mem_cons_of_mem c hd)) hx
    refine ⟨?_, ?_⟩
    · simp [List.takeWhile_cons, hc, ht.1]
    · simp [List.dropWhile_cons, hc, ht.2]

lemma takeWhile_all (p : Char → Bool) :
    ∀ l : List Char, (∀ c ∈ l, p c = true) → l.takeWhile p = l := by
  intro l
  induction l with
  | nil => intro _; rfl
  | cons a t ih =>
    intro h
    have hpa := h a (List.mem_cons_self a t)
    simp [List.takeWhile_cons, hpa, ih fun c hc => h c (List.mem_cons_of_mem a hc)]

lemma dropWhile_head_false (p : Char → Bool) :
    ∀ (l : List Char) (d : Char) (t : List Char),
      l.dropWhile p = d :: t → p d = false := by
  intro l
  induction l with
  | nil =>
    intro d t h
    simp [List.dropWhile] at h
  | cons a l' ih =>
    intro d t h
    cases hpa : p a
    · rw [List.dropWhile_cons_of_neg (by simp [hpa])] at h
      injection h with h1 h2
      rw [← h1]
      exact hpa
    · rw [List.dropWhile_cons_of_pos hpa] at h
      exact ih d t h

lemma afterLast_not_mem (sep : Char) (l : List Char) : sep ∉ afterLast sep l := by
  intro hmem
  rw [afterLast, List.mem_reverse] at hmem
  have := List.mem_takeWhile_imp hmem
  simp at this

lemma afterLast_of_not_mem (sep : Char) (l : List Char) (h : sep ∉ l) :
    afterLast sep l = l := by
  rw [afterLast, takeWhile_all, List.reverse_reverse]
  intro c hc
  rw [List.mem_reverse] at hc
  simp only [bne_iff_ne, ne_eq, decide_eq_true_eq]
  intro he
  exact h (he ▸ hc)

lemma afterLast_append (sep : Char) (t n : List Char) (h : sep ∉ n) :
    afterLast sep (t ++ sep :: n) = n := by
  rw [afterLast]
  have hrev : (t ++ sep :: n).reverse = n.reverse ++ sep :: t.reverse := by
    simp [List.reverse_append]
  rw [hrev]
  have hall : ∀ c ∈ n.reverse, (fun c => c != sep) c = true := by
    intro c hc
    rw [List.mem_reverse] at hc
    simp only [bne_iff_ne, ne_eq, decide_eq_true_eq]
    intro he
    exact h (he ▸ hc)
  have hsep : (fun c => c != sep) sep = false := by simp
  rw [(takeWhile_app (fun c => c != sep) n.reverse sep t.reverse hall hsep).1,
    List.reverse_reverse]

/-- Ending with a dotted suffix is exactly an extension test: for an
extension `e` with no dot, `l` ends with `'.' :: e` iff `l` contains a dot
and the segment after the last dot is `e`. -/
lemma sepSuffix_iff_afterLast (sep : Char) (e l : List Char) (he : sep ∉ e) :
    (sep :: e) <:+ l ↔ (sep ∈ l ∧ afterLast sep l = e) := by
  constructor
  · rintro ⟨t, ht⟩
    subst ht
    refine ⟨List.mem_append.mpr (Or.inr (List.mem_cons_self sep e)), ?_⟩
    exact afterLast_append sep t e he
  · rintro ⟨hmem, hafter⟩
    have hsplit := List.takeWhile_append_dropWhile (fun c => c != sep) l.reverse
    cases hdrop : l.reverse.dropWhile (fun c => c != sep) with
    | nil =>
      exfalso
      rw [hdrop, List.append_nil] at hsplit
      have hsep' : sep ∈ l.reverse := List.mem_reverse.mpr hmem
      rw [← hsplit] at hsep'
      have := List.mem_takeWhile_imp hsep'
      simp at this
    | cons d dt =>
      have hd : (fun c => c != sep) d = false :=
        dropWhile_head_false (fun c => c != sep) l.reverse d dt hdrop
      have hdsep : d = sep := by simpa using hd
      have htake : l.reverse.takeWhile (fun c => c != sep) = e.reverse := by
        rw [afterLast] at hafter
        rw [← hafter, List.reverse_reverse]
      refine ⟨dt.reverse, ?_⟩
      have hlrev : l.reverse = e.reverse ++ sep :: dt := by
        rw [← hsplit, htake, hdrop, hdsep]
      calc dt.reverse ++ sep :: e
          = (e.reverse ++ sep :: dt).reverse := by simp [List.reverse_append]
        _ = l.reverse.reverse := by rw [hlrev]
        _ = l := List.reverse_reverse l

/-- The lowered endswith check of the code against the dotted-suffix tuple
is equivalent to the allow-listed-extension reading of the spec, compared
case-insensitively. -/
lemma endsWithAny_iff_hasAllowedExtension (filename : Path) :
    endsWithAny (toLowerList filename) allowedSuffixes = true ↔
      hasAllowedExtension filename := by
  have hmap : allowedSuffixes = allowedExtNames.map (fun e => '.' :: e) := by decide
  have hnodot : ∀ e ∈ allowedExtNames, ('.' : Char) ∉ e := by decide
  rw [hmap, endsWithAny, List.any_eq_true]
  constructor
  · rintro ⟨t, ht, hsuf⟩
    rw [List.mem_map] at ht
    obtain ⟨e, he, rfl⟩ := ht
    rw [endsWith, decide_eq_true_eq] at hsuf
    have := (sepSuffix_iff_afterLast '.' e (toLowerList filename) (hnodot e he)).mp hsuf
    exact ⟨e, he, by rw [extAfterDot, if_pos this.1, this.2]⟩
  · rintro ⟨e, he, hext⟩
    refine ⟨'.' :: e, List.mem_map.mpr ⟨e, he, rfl⟩, ?_⟩
    rw [endsWith, decide_eq_true_eq]
    rw [extAfterDot] at hext
    by_cases hdot : ('.' : Char) ∈ toLowerList filename
    · rw [if_pos hdot] at hext
      exact (sepSuffix_iff_afterLast '.' e (toLowerList filename) (hnodot e he)).mpr
        ⟨hdot, Option.some.inj hext⟩
    · rw [if_neg hdot] at hext
      exact absurd hext (by simp)

lemma basename_no_slash (p : Path) : ('/' : Char) ∉ basename p :=
  afterLast_not_mem '/' p

lemma exists_append_of_getLast? (l : List Char) (a : Char) (h : l.getLast? = some a) :
    ∃ t, l = t ++ [a] :=
  List.getLast?_eq_some_iff.mp h

/-- Joining then taking the basename returns `n` whenever `n` has no
separator — in
particular for `n` produced by `basename`. -/
lemma basename_pathJoin (dir n : Path) (h : ('/' : Char) ∉ n) :
    basename (pathJoin dir n) = n := by
  rw [pathJoin]
  by_cases h1 : n.head? = some '/'
  · rw [if_pos h1]
    exact afterLast_of_not_mem '/' n h
  · rw [if_neg h1]
    by_cases h2 : dir = ([] : Path)
    · rw [if_pos h2]
      exact afterLast_of_not_mem '/' n h
    · rw [if_neg h2]
      by_cases h3 : dir.getLast? = some '/'
      · rw [if_pos h3]
        obtain ⟨t, ht⟩ := exists_append_of_getLast? dir '/' h3
        rw [ht, List.append_assoc]
        exact afterLast_append '/' t n h
      · rw [if_neg h3]
        exact afterLast_append '/' dir n h

lemma process_file_logic_ok (env : Env) (inp outp : Path) (img asset : PILImage)
    (hmask : env.maskExists = true) (hopen : env.openImage inp = some img)
    (hasset : env.maskAsset = Except.ok asset) (hsave : env.saveErr = none) :
    process_file_logic env inp outp =
      Except.ok [Action.resizeStep, Action.buildMaskStep, Action.inpaintStep,
        Action.save outp (savedImage env img asset) 95] := by
  rw [process_file_logic, if_neg (by simp [hmask]),
    resize_image_some env.lanczos env.toRGB env.openImage inp img hopen, hasset, hsave]
  rfl

/-- C3: a successful handler run executes resize → build mask → inpaint →
save in that order; the saved image is the inpainting result converted back
from BGR to RGB before encoding; the save uses quality 95; and the output
basename of the output path equals the basename of the input file. -/
theorem C3_pipeline_order_save_basename :
    ∀ (env : Env) (ev : Event) (img asset : PILImage),
      ev.is_directory = false →
      endsWithAny (toLowerList (basename ev.src_path)) allowedSuffixes = true →
      env.maskExists = true →
      env.openImage ev.src_path = some img →
      env.maskAsset = Except.ok asset →
      env.saveErr = none →
      on_created env ev =
        [Action.sleep 1, Action.logDetected (basename ev.src_path),
         Action.resizeStep, Action.buildMaskStep, Action.inpaintStep,
         Action.save (pathJoin env.outputDir (basename ev.src_path))
           (savedImage env img asset) 95] ∧
      basename (pathJoin env.outputDir (basename ev.src_path)) = basename ev.src_path := by
  intro env ev img asset hdir hext hmask hopen hasset hsave
  refine ⟨?_, basename_pathJoin env.outputDir (basename ev.src_path)
    (basename_no_slash ev.src_path)⟩
  rw [on_created, if_neg (by simp [hdir]), if_neg (by simp [hext]),
    process_file_logic_ok env ev.src_path (pathJoin env.outputDir (basename ev.src_path))
      img asset hmask hopen hasset hsave]

theorem C3_pipeline_order_save_basename_witness :
    evW3.is_directory = false ∧
    endsWithAny (toLowerList (basename evW3.src_path)) allowedSuffixes = true ∧
    (on_created envW3 evW3 =
      [Action.sleep 1, Action.logDetected (basename evW3.src_path),
       Action.resizeStep, Action.buildMaskStep, Action.inpaintStep,
       Action.save (pathJoin envW3.outputDir (basename evW3.src_path))
         (savedImage envW3 imgW3 assetW) 95] ∧
     basename (pathJoin envW3.outputDir (basename evW3.src_path)) =
       basename evW3.src_path) :=
  ⟨rfl, by decide,
    C3_pipeline_order_save_basename envW3 evW3 imgW3 assetW rfl (by decide) rfl rfl rfl rfl⟩

/-- C5: every pipeline exception is caught at the dispatch boundary: the
handler still returns a trace (never re-raises), that trace logs the failure
together with the file name, and the watcher goes on to process the
remaining events. -/
theorem C5_exception_contained :
    ∀ (env : Env) (ev : Event) (rest : List Event) (tr : List Action) (e : String),
      ev.is_directory = false →
      endsWithAny (toLowerList (basename ev.src_path)) allowedSuffixes = true →
      process_file_logic env ev.src_path (pathJoin env.outputDir (basename ev.src_path)) =
        Except.error (tr, e) →
      on_created env ev =
        Action.sleep 1 :: Action.logDetected (basename ev.src_path) ::
          (tr ++ [Action.logFailure (basename ev.src_path) e]) ∧
      processEvents env (ev :: rest) = on_created env ev :: processEvents env rest := by
  intro env ev rest tr e hdir hext hproc
  refine ⟨?_, rfl⟩
  rw [on_created, if_neg (by simp [hdir]), if_neg (by simp [hext]), hproc]

theorem C5_exception_contained_witness :
    evW5.is_directory = false ∧
    endsWithAny (toLowerList (basename evW5.src_path)) allowedSuffixes = true ∧
    process_file_logic envW5 evW5.src_path
      (pathJoin envW5.outputDir (basename evW5.src_path)) =
      Except.error ([Action.resizeStep], "mask decode failed") ∧
    on_created envW5 evW5 =
      Action.sleep 1 :: Action.logDetected (basename evW5.src_path) ::
        ([Action.resizeStep] ++
          [Action.logFailure (basename evW5.src_path) "mask decode failed"]) ∧
    processEvents envW5 (evW5 :: []) = on_created envW5 evW5 :: processEvents envW5 [] :=
  ⟨rfl, by decide, rfl,
    C5_exception_contained envW5 evW5 [] [Action.resizeStep] "mask decode failed"
      rfl (by decide) rfl⟩

/-- C6: a missing mask asset is fatal only at startup: the `__main__` guard
exits with code 1 before the watcher starts, while at runtime
`process_file_logic` merely logs and returns early (no save, no exception)
and the watcher keeps dispatching subsequent events. -/
theorem C6_mask_missing_startup_fatal_runtime_not :
    (mainStartup false = MainOutcome.exitWithCode 1 ∧
      mainStartup false ≠ MainOutcome.watcherStarted) ∧
    (∀ (env : Env) (inp outp : Path) (ev : Event) (rest : List Event),
      env.maskExists = false →
      process_file_logic env inp outp = Except.ok [Action.logCritical] ∧
      hasSave (traceOf (process_file_logic env inp outp)) = false ∧
      processEvents env (ev :: rest) = on_created env ev :: processEvents env rest) := by
  constructor
  · exact ⟨rfl, by decide⟩
  · intro env inp outp ev rest hmask
    refine ⟨?_, ?_, rfl⟩
    · rw [process_file_logic, if_pos hmask]
    · rw [process_file_logic, if_pos hmask]
      rfl

theorem C6_mask_missing_witness :
    envW6.maskExists = false ∧
    mainStartup false = MainOutcome.exitWithCode 1 ∧
    process_file_logic envW6 [] [] = Except.ok [Action.logCritical] ∧
    hasSave (traceOf (process_file_logic envW6 [] [])) = false ∧
    processEvents envW6 (evW6 :: []) = on_created envW6 evW6 :: processEvents envW6 [] :=
  ⟨rfl, C6_mask_missing_startup_fatal_runtime_not.1.1,
    (C6_mask_missing_startup_fatal_runtime_not.2 envW6 [] [] evW6 [] rfl).1,
    (C6_mask_missing_startup_fatal_runtime_not.2 envW6 [] [] evW6 [] rfl).2.1,
    (C6_mask_missing_startup_fatal_runtime_not.2 envW6 [] [] evW6 [] rfl).2.2⟩

/-- C7: the handler produces no actions at all — in particular invokes no
pipeline step and creates no output file — exactly when the event is a
directory creation or the extension of the filename (compared case-insensitively)
is not in the allow list (png, jpg, jpeg, bmp, tiff). -/
theorem C7_filter_directories_and_extensions :
    ∀ (env : Env) (ev : Event),
      on_created env ev = [] ↔
        (ev.is_directory = true ∨ ¬ hasAllowedExtension (basename ev.src_path)) := by
  intro env ev
  constructor
  · intro h
    by_cases hdir : ev.is_directory = true
    · exact Or.inl hdir
    · right
      intro hext
      have hb : endsWithAny (toLowerList (basename ev.src_path)) allowedSuffixes = true :=
        (endsWithAny_iff_hasAllowedExtension (basename ev.src_path)).mpr hext
      rw [on_created, if_neg (by simp [hdir]), if_neg (by simp [hb])] at h
      exact List.cons_ne_nil _ _ h
  · intro h
    rcases h with hdir | hext
    · rw [on_created, if_pos hdir]
    · have hb : endsWithAny (toLowerList (basename ev.src_path)) allowedSuffixes = false := by
        cases hcase : endsWithAny (toLowerList (basename ev.src_path)) allowedSuffixes
        · rfl
        · exact absurd ((endsWithAny_iff_hasAllowedExtension (basename ev.src_path)).mp hcase)
            hext
      by_cases hdir : ev.is_directory = true
      · rw [on_created, if_pos hdir]
      · rw [on_created, if_neg (by simp [hdir]), if_pos hb]

/-- C8: for every qualifying event (non-directory, allow-listed extension)
the first action of the handler is the fixed 1-second sleep, so the file is never
read immediately on creation. -/
theorem C8_debounce_one_second_first :
    ∀ (env : Env) (ev : Event),
      ev.is_directory = false →
      endsWithAny (toLowerList (basename ev.src_path)) allowedSuffixes = true →
      List.head? (on_created env ev) = some (Action.sleep 1) := by
  intro env ev hdir hext
  rw [on_created, if_neg (by simp [hdir]), if_neg (by simp [hext])]
  rfl

theorem C8_debounce_one_second_first_witness :
    evW8.is_directory = false ∧
    endsWithAny (toLowerList (basename evW8.src_path)) allowedSuffixes = true ∧
    List.head? (on_created envW8 evW8) = some (Action.sleep 1) :=
  ⟨rfl, by decide, C8_debounce_one_second_first envW8 evW8 rfl (by decide)⟩

theorem C9_counterexample_no_mkdir_per_run :
    envC9.outputDirExists = false ∧
    process_file_logic envC9 inC9 outC9 =
      Except.error ([Action.resizeStep, Action.buildMaskStep, Action.inpaintStep],
        "No such file or directory") ∧
    hasMkdirs (traceOf (process_file_logic envC9 inC9 outC9)) = false ∧
    isOkB (process_file_logic envC9 inC9 outC9) = false :=
  ⟨rfl, rfl, rfl, rfl⟩

/-- C9 (amended): the input and output directories are created idempotently
(`exist_ok=True`) once at module initialization, before the watcher starts;
`process_file_logic` itself never creates a directory, so a run whose output
directory disappeared after startup fails non-fatally instead of recreating
it. -/
theorem C9_amended_mkdirs_at_startup_only :
    (∀ cfg : Config, moduleInit cfg =
      [Action.mkdirs cfg.inputDir true, Action.mkdirs cfg.outputDir true]) ∧
    (∀ (env : Env) (inp outp : Path),
      hasMkdirs (traceOf (process_file_logic env inp outp)) = false) := by
  constructor
  · intro cfg
    rfl
  · intro env inp outp
    rw [process_file_logic]
    by_cases hmask : env.maskExists = false
    · rw [if_pos hmask]
      rfl
    · rw [if_neg hmask]
      cases hres : resize_image env.lanczos env.toRGB env.openImage inp with
      | none => rfl
      | some img_cv =>
        cases hasset : env.maskAsset with
        | error e => rfl
        | ok asset =>
          cases hsave : env.saveErr with
          | none => rfl
          | some e => rfl

/-- C10: when a step before saving fails — mask asset missing, or the input
image cannot be opened/decoded — `process_file_logic` returns normally
(early) and its trace contains no save, so nothing is created or modified at
the output path. -/
theorem C10_no_output_on_early_failure :
    ∀ (env : Env) (inp outp : Path),
      (env.maskExists = false ∨
        resize_image env.lanczos env.toRGB env.openImage inp = none) →
      isOkB (process_file_logic env inp outp) = true ∧
      hasSave (traceOf (process_file_logic env inp outp)) = false := by
  intro env inp outp h
  rcases h with h | h
  · rw [process_file_logic, if_pos h]
    exact ⟨rfl, rfl⟩
  · by_cases hmask : env.maskExists = false
    · rw [process_file_logic, if_pos hmask]
      exact ⟨rfl, rfl⟩
    · rw [process_file_logic, if_neg hmask, h]
      exact ⟨rfl, rfl⟩

theorem C10_no_output_on_early_failure_witness :
    envW10.maskExists = false ∧
    isOkB (process_file_logic envW10 [] []) = true ∧
    hasSave (traceOf (process_file_logic envW10 [] [])) = false :=
  ⟨rfl, C10_no_output_on_early_failure envW10 [] [] (Or.inl rfl)⟩

end AutoRemove
